import Mathlib

/-!
Verification of `src/shogun/features/streaming/StreamingHashedSparseFeatures.cpp`.

The file shallowly embeds the streaming feature-hashing pipeline: sparse
vectors, the hash transform, the parser/producer contract, the pipeline
state and its operations (construction, advance, release, dot products,
dense accumulation).  Numeric values (C++ `float32_t`/`float64_t` and the
element type `ST`) are modelled as exact rationals; machine indices
(`index_t`, `int32_t`) as `Nat`/`Int`.
-/

namespace Shogun

/-- One entry of a sparse vector: a feature index and a numeric value
(`SGSparseVectorEntry<ST>` in the source). -/
structure SGSparseVectorEntry where
  feat_index : Nat
  entry : ℚ
deriving DecidableEq, Repr

/-- A sparse vector is its list of entries (`SGSparseVector<ST>`:
`features` array plus `num_feat_entries`, the latter being the length). -/
abbrev SparseVec := List SGSparseVectorEntry

/-- Shogun's runtime feature-type tag (`EFeatureType`), restricted to the
constructors this file mentions. -/
inductive EFeatureType where
  | F_BOOL
  | F_CHAR
  | F_INT
  | F_UINT
  | F_SHORTREAL
  | F_DREAL
deriving DecidableEq, Repr

/-- Shogun's runtime feature-class tag (`EFeatureClass`), restricted to the
constructors this file mentions. -/
inductive EFeatureClass where
  | C_STREAMING_SPARSE
  | C_STREAMING_DENSE
deriving DecidableEq, Repr

/-- The element types `ST` for which the source file explicitly
instantiates the template (lines 211-223). -/
inductive ElementType where
  | bool | char | int8 | uint8 | int16 | uint16
  | int32 | uint32 | int64 | uint64
  | float32 | float64 | floatmax
deriving DecidableEq, Repr

/-- `get_feature_type` of the source (lines 146-150): it ignores the
element type `ST` and returns `F_UINT` for every instantiation. -/
def get_feature_type (_ : ElementType) : EFeatureType :=
  EFeatureType.F_UINT

/-- `get_feature_class` of the source (lines 152-156). -/
def get_feature_class (_ : ElementType) : EFeatureClass :=
  EFeatureClass.C_STREAMING_SPARSE

/-! ## Hash transform

`HashedSparseFeatures<ST>::hash_vector` is reused from the batch variant
and is not part of this fragment, so it is modelled from the spec
(section 4.1). -/

/-- Modelled from the spec: the single-index hash of the Hash Transform —
a fixed deterministic function of the input index (the concrete mixing
constants are a stand-in for the library hash, which is outside this
fragment). -/
def hashIndex (i : Nat) : Nat :=
  i * 2654435761 + 104729

/-- Modelled from the spec: the symmetric pairing hash for quadratic
interaction terms; `hashPair i j = hashPair j i` by construction. -/
def hashPair (i j : Nat) : Nat :=
  hashIndex (min i j) * 31 + hashIndex (max i j)

/-- Merge one hashed contribution `(idx, v)` into an accumulator that
holds at most one entry per index: if `idx` is present its value grows by
`v`, otherwise a fresh entry is appended. -/
def addEntry : SparseVec → Nat → ℚ → SparseVec
  | [], idx, v => [⟨idx, v⟩]
  | e :: rest, idx, v =>
      if e.feat_index = idx then ⟨idx, e.entry + v⟩ :: rest
      else e :: addEntry rest idx v

/-- Modelled from the spec: the pre-merge quadratic contributions — for
every unordered pair of input entries, self-pairs included exactly once,
an entry at the pairing hash with the product of the two values. -/
def quadContribs : SparseVec → List (Nat × ℚ)
  | [] => []
  | e :: rest =>
      (hashPair e.feat_index e.feat_index, e.entry * e.entry) ::
        (rest.map fun f => (hashPair e.feat_index f.feat_index, e.entry * f.entry)) ++
        quadContribs rest

/-- The pre-merge contributions of the Hash Transform, already reduced
modulo the target dimension `d`: linear terms `(hash(i) mod d, v)` unless
`use_quadratic` is true and `keep_linear_terms` is false, plus the
quadratic terms when `use_quadratic` is true. -/
def hashContribs (raw : SparseVec) (d : Nat) (use_quadratic keep_linear_terms : Bool) :
    List (Nat × ℚ) :=
  (if !use_quadratic || keep_linear_terms then
    raw.map fun e => (hashIndex e.feat_index % d, e.entry)
  else []) ++
  (if use_quadratic then (quadContribs raw).map fun p => (p.1 % d, p.2)
  else [])

/-- Modelled from the spec: `HashedSparseFeatures<ST>::hash_vector`
(the Hash Transform, spec section 4.1).  All contributions that collide
on a target index are merged by summation. -/
def hash_vector (raw : SparseVec) (dim : Int) (use_quadratic keep_linear_terms : Bool) :
    SparseVec :=
  (hashContribs raw dim.toNat use_quadratic keep_linear_terms).foldl
    (fun acc p => addEntry acc p.1 p.2) []

/-! ## Parser / producer

The generic parsing engine (`CInputParser` / `StreamingFile`) is an
external collaborator, not part of this fragment; it is modelled from the
spec's producer contract (section 6): a queue of raw examples with
start/next/finalize/stop operations. -/

/-- Modelled from the spec: the state of the producer-side parsing engine.
`examples` is the queue of raw (vector, label) examples still to be
served; `free_vector_after_release` and `free_vectors_on_destruct` are
the ownership flags the pipeline sets on it; `finalized` counts
finalize-example signals. -/
structure ParserState where
  examples : List (SparseVec × ℚ)
  running : Bool
  buffer_size : Int
  free_vector_after_release : Bool
  free_vectors_on_destruct : Bool
  finalized : Nat
deriving DecidableEq, Repr

namespace ParserState

/-- Modelled from the spec: `parser.init(file, is_labelled, size)` — wire
the parser to a source (here: its example queue) with a buffer size;
ownership flags start at their defaults. -/
def init (exs : List (SparseVec × ℚ)) (_is_labelled : Bool) (size : Int) : ParserState :=
  { examples := exs, running := false, buffer_size := size,
    free_vector_after_release := true, free_vectors_on_destruct := true,
    finalized := 0 }

/-- Modelled from the spec: pull the next raw example, or `none` when the
producer is exhausted or not running; on `none` nothing is written to the
caller's outputs. -/
def get_next (p : ParserState) : Option ((SparseVec × ℚ) × ParserState) :=
  if p.running then
    match p.examples with
    | [] => none
    | ex :: rest => some (ex, { p with examples := rest })
  else none

/-- Modelled from the spec: `parser.finalize_example()` — a pure signal to
the producer that the current raw buffer may be reclaimed. -/
def finalize_example (p : ParserState) : ParserState :=
  { p with finalized := p.finalized + 1 }

/-- Modelled from the spec: start the producer. -/
def start (p : ParserState) : ParserState :=
  { p with running := true }

/-- Modelled from the spec: stop the producer. -/
def stop (p : ParserState) : ParserState :=
  { p with running := false }

end ParserState

/-- Modelled from the spec: the base-class (`StreamingDotFeatures`)
defaults the pipeline starts from before `init` runs: no seek capability
and an idle, empty parser. -/
def baseParserState : ParserState :=
  ParserState.init [] false 0

/-- Modelled from the spec: the base-class default of the `seekable`
flag — a pipeline offers seeking only if a source advertises it, so the
default is `false`. -/
def baseSeekable : Bool :=
  false

/-! ## Pipeline state -/

/-- The state of a `StreamingHashedSparseFeatures<ST>` pipeline: the
template element type, the configuration set by `init`, the single
resident hashed vector and its label, and the parser. -/
structure State where
  elem : ElementType
  dim : Int
  use_quadratic : Bool
  keep_linear_terms : Bool
  has_labels : Bool
  seekable : Bool
  current_vector : SparseVec
  current_label : ℚ
  parser : ParserState
deriving DecidableEq, Repr

/-- `init` of the source (lines 49-77): store `dim` and the flags; when a
file is supplied, wire the parser to it and clear `seekable`; finally
clear the parser's free-vector-after-release flag.  The `file` argument
is the queue of examples the source will serve (`none` models a NULL
file, as passed by the default constructor). -/
def init (elem : ElementType) (file : Option (List (SparseVec × ℚ)))
    (is_labelled : Bool) (size : Int) (d : Int)
    (use_quadr keep_lin_terms : Bool) : State :=
  let p : ParserState :=
    match file with
    | some exs => ParserState.init exs is_labelled size
    | none => baseParserState
  let sk : Bool :=
    match file with
    | some _ => false
    | none => baseSeekable  -- seekable untouched: stays at the base default
  { elem := elem, dim := d,
    use_quadratic := use_quadr, keep_linear_terms := keep_lin_terms,
    has_labels := is_labelled, seekable := sk,
    current_vector := [], current_label := 0,
    parser := { p with free_vector_after_release := false } }

/-- The default constructor (lines 15-19): `init(NULL, false, 0, 0, false, true)`. -/
def ctor_default (elem : ElementType) : State :=
  init elem none false 0 0 false true

/-- The file-source constructor (lines 21-26): forwards everything to
`init`. -/
def ctor_from_file (elem : ElementType) (file : List (SparseVec × ℚ))
    (is_labelled : Bool) (size d : Int) (use_quadr keep_lin_terms : Bool) : State :=
  init elem (some file) is_labelled size d use_quadr keep_lin_terms

/-- The in-memory constructor (lines 28-42): wrap the batch in a
`StreamingFileFromSparseFeatures` adapter (vectors paired with the label
array when one is supplied), `is_labelled = (lab != NULL)`, buffer size
1024; after `init`, instruct the parser not to free vectors on destruct
and mark the pipeline seekable. -/
def ctor_from_sparse_features (elem : ElementType) (vectors : List SparseVec)
    (d : Int) (use_quadr keep_lin_terms : Bool) (lab : Option (List ℚ)) : State :=
  let exs : List (SparseVec × ℚ) :=
    match lab with
    | some ls => vectors.zip ls
    | none => vectors.map fun v => (v, 0)
  let s := init elem (some exs) lab.isSome 1024 d use_quadr keep_lin_terms
  { s with parser := { s.parser with free_vectors_on_destruct := false },
           seekable := true }

/-- `start_parser` of the source (lines 158-163): start the producer only
if it is not already running. -/
def startParser (s : State) : State :=
  if s.parser.running then s else { s with parser := s.parser.start }

/-- `end_parser` of the source (lines 165-169): stop the producer. -/
def endParser (s : State) : State :=
  { s with parser := s.parser.stop }

/-- `get_next_example` of the source (lines 177-191): pull the next raw
vector (and, for a labelled stream, the label) from the parser; on
success hash it into `current_vector` and return true; on exhaustion
return false with the state untouched. -/
def get_next_example (s : State) : Bool × State :=
  match s.parser.get_next with
  | none => (false, s)
  | some ((vec, lab), p') =>
      (true,
        { s with
            parser := p',
            current_label := if s.has_labels then lab else s.current_label,
            current_vector :=
              hash_vector vec s.dim s.use_quadratic s.keep_linear_terms })

/-- `release_example` of the source (lines 193-197): only signal the
parser to finalize the current example. -/
def release_example (s : State) : State :=
  { s with parser := s.parser.finalize_example }

/-- `get_label` of the source (lines 171-175). -/
def get_label (s : State) : ℚ :=
  s.current_label

/-- `get_vector` of the source (lines 205-209). -/
def get_vector (s : State) : SparseVec :=
  s.current_vector

/-- `get_num_vectors` of the source (lines 127-131): always 1. -/
def get_num_vectors (_ : State) : Int :=
  1

/-- `get_dim_feature_space` of the source (lines 115-119). -/
def get_dim_feature_space (s : State) : Int :=
  s.dim

/-- `get_num_features` of the source (lines 199-203). -/
def get_num_features (s : State) : Int :=
  s.dim

/-- `get_name` of the source (lines 121-125): the same string for every
instantiation. -/
def get_name (_ : State) : String :=
  "StreamingHashedSparseFeatures"

/-! ## Vector algebra -/

/-- The value a sparse vector holds at an index (0 when absent); hashed
vectors hold at most one entry per index. -/
def lookupEntry (b : SparseVec) (idx : Nat) : ℚ :=
  match b.find? (fun e => e.feat_index == idx) with
  | some e => e.entry
  | none => 0

/-- Modelled from the spec: `SGSparseVector::sparse_dot` (spec section
4.2) — the sum over indices present in both vectors of the product of
their values; it performs no dimension check of its own. -/
def sparse_dot (a b : SparseVec) : ℚ :=
  (a.map fun e => e.entry * lookupEntry b e.feat_index).sum

/-- The runtime compatibility check `dot` performs on its argument
(lines 82-84): the feature-type tags must agree and the class names must
agree.  No dimension comparison appears in the source. -/
def dot_type_check (s df : State) : Bool :=
  (get_feature_type df.elem == get_feature_type s.elem) &&
    (get_name df == get_name s)

/-- `dot` of the source (lines 79-88): after the type-tag and name
asserts, cast the argument to the same pipeline type and return the
sparse dot product of the two current vectors.  `none` models a failed
assert. -/
def dot (s df : State) : Option ℚ :=
  if dot_type_check s df then
    some (sparse_dot s.current_vector df.current_vector)
  else none

/-- `dense_dot` of the source (lines 90-100): assert
`vec2_len == dim` (modelled as `none` on failure), then accumulate
`vec2[idx] * value` over the current vector's entries. -/
def dense_dot (s : State) (vec2 : List ℚ) (vec2_len : Int) : Option ℚ :=
  if vec2_len = s.dim then
    some (s.current_vector.foldl
      (fun r e => r + vec2.getD e.feat_index 0 * e.entry) 0)
  else none

/-- The in-place accumulation loop of `add_to_dense_vec`: for each entry,
`vec2[idx] += a * value`. -/
def scatterAdd (a : ℚ) (l : SparseVec) (vec2 : List ℚ) : List ℚ :=
  l.foldl (fun acc e => acc.set e.feat_index (acc.getD e.feat_index 0 + a * e.entry)) vec2

/-- `add_to_dense_vec` of the source (lines 102-113): assert
`vec2_len == dim` (modelled as `none` on failure); if `abs_val` then
`alpha = Math::abs(alpha)`; then `vec2[idx] += alpha * value` for each
entry of the current vector. -/
def add_to_dense_vec (s : State) (alpha : ℚ) (vec2 : List ℚ) (vec2_len : Int)
    (abs_val : Bool) : Option (List ℚ) :=
  if vec2_len = s.dim then
    let a := if abs_val then |alpha| else alpha
    some (scatterAdd a s.current_vector vec2)
  else none

/-- The accumulation that the spec's words claim for
`accumulate_into_dense` with `use_abs = true`: `alpha * abs(value)` added
per entry — stated for comparison with `add_to_dense_vec`, which the
source actually implements. -/
def add_to_dense_vec_claimed (s : State) (alpha : ℚ) (vec2 : List ℚ) (vec2_len : Int)
    (abs_val : Bool) : Option (List ℚ) :=
  if vec2_len = s.dim then
    some (s.current_vector.foldl
      (fun acc e =>
        let v := if abs_val then |e.entry| else e.entry
        acc.set e.feat_index (acc.getD e.feat_index 0 + alpha * v)) vec2)
  else none

/-! ## Reachable pipeline states -/

/-- The pipeline states reachable from the three constructors by any
sequence of start / advance / release / stop operations. -/
inductive Reach : State → Prop where
  | ctor_def : ∀ elem, Reach (ctor_default elem)
  | ctor_file : ∀ elem file il size d uq kl,
      Reach (ctor_from_file elem file il size d uq kl)
  | ctor_mem : ∀ elem vs d uq kl lab,
      Reach (ctor_from_sparse_features elem vs d uq kl lab)
  | step_start : ∀ s, Reach s → Reach (startParser s)
  | step_advance : ∀ s, Reach s → Reach (get_next_example s).2
  | step_release : ∀ s, Reach s → Reach (release_example s)
  | step_stop : ∀ s, Reach s → Reach (endParser s)

/-- Decidable form of the range invariant: every index of `l` is below
`d`. -/
def indicesBelow (l : SparseVec) (d : Int) : Bool :=
  l.all fun e => decide ((e.feat_index : Int) < d)

/-! ## Concrete pipelines used as test vehicles -/

/-- A pipeline over the in-memory batch `[{(3, 2.0), (7, 5.0)}]` with
target dimension 4, started and advanced once; both raw indices hash to
0, so its current vector is `[(0, 7)]`. -/
def pipelineA : State :=
  (get_next_example (startParser
    (ctor_from_sparse_features ElementType.float64 [[⟨3, 2⟩, ⟨7, 5⟩]] 4 false true none))).2

/-- A pipeline of a different element type over `[{(3, 2.0)}]` with
target dimension 2, started and advanced once; its current vector is
`[(0, 2)]`. -/
def pipelineB : State :=
  (get_next_example (startParser
    (ctor_from_sparse_features ElementType.int32 [[⟨3, 2⟩]] 2 false true none))).2

/-- A pipeline over `[{(3, -2.0)}]` with target dimension 1, started and
advanced once; its current vector is `[(0, -2)]` — a negative value, to
separate `abs(alpha) * value` from `alpha * abs(value)`. -/
def pipelineNeg : State :=
  (get_next_example (startParser
    (ctor_from_sparse_features ElementType.float32 [[⟨3, -2⟩]] 1 false true none))).2

/-- A started pipeline over an empty in-memory batch: its producer is
exhausted from the start. -/
def pipelineEmpty : State :=
  startParser (ctor_from_sparse_features ElementType.float32 [] 4 false true none)

/-! ## Helper lemmas -/

/-- A left fold that only accumulates a sum equals the initial value plus
the sum of the mapped list. -/
lemma foldl_add_map_sum (f : SGSparseVectorEntry → ℚ) :
    ∀ (l : SparseVec) (r : ℚ), l.foldl (fun acc e => acc + f e) r = r + (l.map f).sum
  | [], r => by simp
  | e :: rest, r => by
      simp only [List.foldl_cons, List.map_cons, List.sum_cons]
      rw [foldl_add_map_sum f rest (r + f e)]
      ring

/-- `addEntry` only introduces the merged index: any property of the
accumulator's indices that also holds of the new index holds of the
result's indices. -/
lemma addEntry_forall (P : Nat → Prop) :
    ∀ (acc : SparseVec) (idx : Nat) (v : ℚ),
      (∀ e ∈ acc, P e.feat_index) → P idx →
      ∀ e ∈ addEntry acc idx v, P e.feat_index
  | [], idx, v, _, hidx => by
      intro e he
      simp only [addEntry, List.mem_singleton] at he
      subst he
      exact hidx
  | a :: rest, idx, v, hacc, hidx => by
      intro e he
      simp only [addEntry] at he
      split at he
      · rcases List.mem_cons.1 he with rfl | hmem
        · exact hidx
        · exact hacc _ (List.mem_cons_of_mem _ hmem)
      · rcases List.mem_cons.1 he with rfl | hmem
        · exact hacc _ (List.mem_cons_self _ _)
        · exact addEntry_forall P rest idx v
            (fun f hf => hacc f (List.mem_cons_of_mem _ hf)) hidx e hmem

/-- Folding contributions through `addEntry` preserves any index
property that holds of the contributions and the accumulator. -/
lemma foldl_addEntry_forall (P : Nat → Prop) :
    ∀ (ps : List (Nat × ℚ)) (acc : SparseVec),
      (∀ p ∈ ps, P p.1) → (∀ e ∈ acc, P e.feat_index) →
      ∀ e ∈ ps.foldl (fun acc p => addEntry acc p.1 p.2) acc, P e.feat_index
  | [], _, _, hacc => hacc
  | p :: rest, acc, hps, hacc => by
      intro e he
      exact foldl_addEntry_forall P rest (addEntry acc p.1 p.2)
        (fun q hq => hps q (List.mem_cons_of_mem _ hq))
        (addEntry_forall P acc p.1 p.2 hacc (hps p (List.mem_cons_self _ _))) e he

/-- Every contribution of the Hash Transform carries an index reduced
modulo the positive target dimension. -/
lemma hashContribs_fst_lt (raw : SparseVec) (d : Nat) (uq kl : Bool) (hd : 0 < d) :
    ∀ p ∈ hashContribs raw d uq kl, p.1 < d := by
  intro p hp
  rcases List.mem_append.1 hp with h | h
  · split at h
    · obtain ⟨a, -, rfl⟩ := List.mem_map.1 h
      exact Nat.mod_lt _ hd
    · simp at h
  · split at h
    · obtain ⟨a, -, rfl⟩ := List.mem_map.1 h
      exact Nat.mod_lt _ hd
    · simp at h

/-- Range invariant of the Hash Transform: with a positive target
dimension, every output index is below it. -/
lemma hash_vector_index_lt (raw : SparseVec) (dim : Int) (uq kl : Bool) (hd : 0 < dim) :
    ∀ e ∈ hash_vector raw dim uq kl, (e.feat_index : Int) < dim := by
  intro e he
  have hdn : 0 < dim.toNat := by omega
  have h1 : e.feat_index < dim.toNat :=
    foldl_addEntry_forall (fun i => i < dim.toNat) _ []
      (hashContribs_fst_lt raw _ uq kl hdn) (by simp) e he
  exact Int.lt_toNat.1 h1

/-- The scatter-accumulate loop read off at one in-range slot: the
original value plus `a` times the sum of the entries that target it. -/
lemma scatterAdd_getD (a : ℚ) :
    ∀ (l : SparseVec) (vec2 : List ℚ) (j : Nat),
      (∀ e ∈ l, e.feat_index < vec2.length) → j < vec2.length →
      (scatterAdd a l vec2).getD j 0 =
        vec2.getD j 0 +
          a * ((l.filter fun e => e.feat_index == j).map fun e => e.entry).sum
  | [], vec2, j, _, _ => by simp [scatterAdd]
  | e :: rest, vec2, j, hl, hj => by
      have he : e.feat_index < vec2.length := hl e (List.mem_cons_self _ _)
      have hstep : scatterAdd a (e :: rest) vec2
          = scatterAdd a rest
              (vec2.set e.feat_index (vec2.getD e.feat_index 0 + a * e.entry)) := rfl
      have hlen :
          (vec2.set e.feat_index (vec2.getD e.feat_index 0 + a * e.entry)).length
            = vec2.length := List.length_set ..
      have ih := scatterAdd_getD a rest
        (vec2.set e.feat_index (vec2.getD e.feat_index 0 + a * e.entry)) j
        (fun f hf => by rw [hlen]; exact hl f (List.mem_cons_of_mem _ hf))
        (by rw [hlen]; exact hj)
      rw [hstep, ih]
      by_cases hij : e.feat_index = j
      · subst hij
        rw [List.getD_eq_getElem?_getD, List.getElem?_set_self he, Option.getD_some]
        simp only [List.filter_cons, beq_self_eq_true, if_pos, List.map_cons, List.sum_cons]
        ring
      · rw [List.getD_eq_getElem?_getD, List.getElem?_set_ne hij,
          ← List.getD_eq_getElem?_getD]
        simp only [List.filter_cons, List.map_cons]
        rw [if_neg (by simpa using hij)]

/-- The current vector of `pipelineA`, computed. -/
lemma pipelineA_current_vector : pipelineA.current_vector = [⟨0, 7⟩] := by
  simp [pipelineA, get_next_example, startParser, ctor_from_sparse_features, init,
    ParserState.init, ParserState.get_next, ParserState.start, baseParserState,
    hash_vector, hashContribs, quadContribs, addEntry, hashIndex]
  all_goals norm_num

/-- The current vector of `pipelineB`, computed. -/
lemma pipelineB_current_vector : pipelineB.current_vector = [⟨0, 2⟩] := by
  simp [pipelineB, get_next_example, startParser, ctor_from_sparse_features, init,
    ParserState.init, ParserState.get_next, ParserState.start, baseParserState,
    hash_vector, hashContribs, quadContribs, addEntry, hashIndex]

/-- The current vector of `pipelineNeg`, computed. -/
lemma pipelineNeg_current_vector : pipelineNeg.current_vector = [⟨0, -2⟩] := by
  simp [pipelineNeg, get_next_example, startParser, ctor_from_sparse_features, init,
    ParserState.init, ParserState.get_next, ParserState.start, baseParserState,
    hash_vector, hashContribs, quadContribs, addEntry, hashIndex]

/-- The target dimension of `pipelineNeg`. -/
lemma pipelineNeg_dim : pipelineNeg.dim = 1 :=
  rfl

/-! ## Claims -/

/-- C1 (counterexample): two pipelines constructed with target dimensions
4 and 2 pass both asserts of `dot` — which compares only the feature-type
tag and the class name — and `dot` returns the number 14 instead of
rejecting the mismatched dimensions. -/
theorem dot_dim_mismatch_counterexample :
    pipelineA.dim = 4 ∧ pipelineB.dim = 2 ∧ dot pipelineA pipelineB = some 14 := by
  refine ⟨rfl, rfl, ?_⟩
  have hpass : dot pipelineA pipelineB
      = some (sparse_dot pipelineA.current_vector pipelineB.current_vector) := by
    simp [dot, dot_type_check, get_feature_type, get_name]
  rw [hpass, pipelineA_current_vector, pipelineB_current_vector]
  simp [sparse_dot, lookupEntry, List.find?]
  norm_num

/-- C1 (amended): `dot` guards only the feature-type tag and the class
name, and both are the same constants for every instantiation of this
class, so the call between two such pipelines always succeeds and returns
the sparse dot product of the two current vectors; no dimension-equality
check is performed. -/
theorem dot_accepts_any_dims (s df : State) :
    dot s df = some (sparse_dot s.current_vector df.current_vector) := by
  simp [dot, dot_type_check, get_feature_type, get_name]

/-- C2 (counterexample): with `abs_val = true`, `alpha = 1` and current
vector `[(0, -2)]`, the code adds `abs(alpha) * value = -2` into the
dense slot, while the claimed `alpha * abs(value)` would add `2`: the two
disagree at this input. -/
theorem add_to_dense_abs_counterexample :
    add_to_dense_vec pipelineNeg 1 [0] 1 true = some [-2] ∧
    add_to_dense_vec_claimed pipelineNeg 1 [0] 1 true = some [2] ∧
    add_to_dense_vec pipelineNeg 1 [0] 1 true
      ≠ add_to_dense_vec_claimed pipelineNeg 1 [0] 1 true := by
  have h1 : add_to_dense_vec pipelineNeg 1 [0] 1 true = some [-2] := by
    simp [add_to_dense_vec, scatterAdd, pipelineNeg_current_vector, pipelineNeg_dim]
  have h2 : add_to_dense_vec_claimed pipelineNeg 1 [0] 1 true = some [2] := by
    simp [add_to_dense_vec_claimed, pipelineNeg_current_vector, pipelineNeg_dim]
  refine ⟨h1, h2, ?_⟩
  rw [h1, h2]
  simp
  norm_num

/-- C2 (amended): with `use_abs = true`, `add_to_dense_vec` applies the
absolute value to `alpha`, not to each entry's value: the call equals the
`use_abs = false` call at `abs(alpha)`, and for every in-range target index
`j` the dense slot receives its old value plus `abs(alpha)` times the sum
of the current vector's entries hashed to `j`. -/
theorem add_to_dense_abs_on_alpha :
    (∀ (s : State) (alpha : ℚ) (vec2 : List ℚ) (vec2_len : Int),
      add_to_dense_vec s alpha vec2 vec2_len true
        = add_to_dense_vec s |alpha| vec2 vec2_len false) ∧
    (∀ (s : State) (alpha : ℚ) (vec2 : List ℚ) (j : Nat),
      (vec2.length : Int) = s.dim →
      (∀ e ∈ s.current_vector, e.feat_index < vec2.length) →
      j < vec2.length →
      add_to_dense_vec s alpha vec2 (vec2.length : Int) true
          = some (scatterAdd |alpha| s.current_vector vec2) ∧
      (scatterAdd |alpha| s.current_vector vec2).getD j 0 =
        vec2.getD j 0 + |alpha| *
          ((s.current_vector.filter fun e => e.feat_index == j).map
            fun e => e.entry).sum) := by
  constructor
  · intro s alpha vec2 vec2_len
    by_cases h : vec2_len = s.dim
    · rw [add_to_dense_vec, add_to_dense_vec, if_pos h, if_pos h]
      simp
    · rw [add_to_dense_vec, add_to_dense_vec, if_neg h, if_neg h]
  · intro s alpha vec2 j hlen hrange hj
    refine ⟨?_, scatterAdd_getD |alpha| s.current_vector vec2 j hrange hj⟩
    rw [add_to_dense_vec, if_pos hlen]
    simp

/-- C2 (witness): the amended theorem applied to `pipelineNeg`,
`alpha = -3`, dense vector `[10]`: the slot becomes
`10 + abs(-3) * (-2) = 4`. -/
theorem add_to_dense_abs_on_alpha_witness :
    add_to_dense_vec pipelineNeg (-3) [10] 1 true = some [4] := by
  have h := (add_to_dense_abs_on_alpha.2 pipelineNeg (-3) [10] 0
    (by rfl)
    (by rw [pipelineNeg_current_vector]; decide)
    (by decide)).1
  refine h.trans ?_
  rw [pipelineNeg_current_vector]
  simp [scatterAdd]
  norm_num

/-- C3: when the producer yields no next example, `get_next_example`
returns false and leaves the whole state — in particular
`current_vector` and `current_label` — unchanged. -/
theorem advance_exhausted_frame (s : State) (h : s.parser.get_next = none) :
    get_next_example s = (false, s) ∧
    (get_next_example s).2.current_vector = s.current_vector ∧
    (get_next_example s).2.current_label = s.current_label := by
  have h1 : get_next_example s = (false, s) := by
    simp [get_next_example, h]
  exact ⟨h1, by rw [h1], by rw [h1]⟩

/-- C3 (witness): a started pipeline over an empty batch is exhausted,
and the failed advance returns false with the state intact. -/
theorem advance_exhausted_frame_witness :
    get_next_example pipelineEmpty = (false, pipelineEmpty) :=
  (advance_exhausted_frame pipelineEmpty (by decide)).1

/-- C4 (counterexample): the default constructor calls
`init(NULL, false, 0, 0, false, true)` and succeeds — a pipeline whose
target dimension is the non-positive value 0 is created, with no
configuration error. -/
theorem ctor_nonpositive_dim_counterexample :
    (ctor_default ElementType.float32).dim = 0 ∧
    ¬ 0 < (ctor_default ElementType.float32).dim := by
  decide

/-- C4 (amended): `init` performs no validation of the target dimension:
every construction path succeeds and stores the requested `d` unchanged,
even when `d ≤ 0`, and the default constructor creates a pipeline with
dimension 0. -/
theorem ctor_no_dim_validation (elem : ElementType) (file : List (SparseVec × ℚ))
    (il : Bool) (size d : Int) (uq kl : Bool) (vs : List SparseVec)
    (lab : Option (List ℚ)) (_hd : d ≤ 0) :
    (ctor_from_file elem file il size d uq kl).dim = d ∧
    (ctor_from_sparse_features elem vs d uq kl lab).dim = d ∧
    (ctor_default elem).dim = 0 :=
  ⟨rfl, rfl, rfl⟩

/-- C4 (witness): the amended theorem at the non-positive dimension -5. -/
theorem ctor_no_dim_validation_witness :
    (ctor_from_file ElementType.float32 [] false 0 (-5) false true).dim = -5 ∧
    (ctor_from_sparse_features ElementType.float32 [] (-5) false true none).dim = -5 ∧
    (ctor_default ElementType.float32).dim = 0 :=
  ctor_no_dim_validation ElementType.float32 [] false 0 (-5) false true [] none
    (by decide)

/-- C5: `dense_dot` fails (for every dense array) when the declared
length differs from the target dimension, and otherwise returns the sum
over the current vector's entries of `vec2[idx] * value`. -/
theorem dense_dot_dim_guard (s : State) (vec2 : List ℚ) (vec2_len : Int) :
    (vec2_len ≠ s.dim → dense_dot s vec2 vec2_len = none) ∧
    (vec2_len = s.dim → dense_dot s vec2 vec2_len =
        some ((s.current_vector.map fun e => vec2.getD e.feat_index 0 * e.entry).sum)) := by
  constructor
  · intro h
    simp [dense_dot, h]
  · intro h
    rw [dense_dot, if_pos h]
    rw [foldl_add_map_sum (fun e => vec2.getD e.feat_index 0 * e.entry) s.current_vector 0,
      zero_add]

/-- C5 (witness): on `pipelineA` (dimension 4, current vector
`[(0, 7)]`), a declared length 3 is rejected and a declared length 4
yields `1 * 7 = 7`. -/
theorem dense_dot_dim_guard_witness :
    dense_dot pipelineA [1, 2, 3, 4] 3 = none ∧
    dense_dot pipelineA [1, 2, 3, 4] 4 = some 7 := by
  constructor
  · exact (dense_dot_dim_guard pipelineA [1, 2, 3, 4] 3).1 (by decide)
  · refine ((dense_dot_dim_guard pipelineA [1, 2, 3, 4] 4).2 rfl).trans ?_
    rw [pipelineA_current_vector]
    simp

/-- C6: in every reachable pipeline state with a positive target
dimension, every index of `current_vector` lies below the dimension; in
particular every index produced by the hash transform lies below a
positive `dim`. -/
theorem current_vector_index_range :
    (∀ s, Reach s → 0 < s.dim → indicesBelow s.current_vector s.dim = true) ∧
    (∀ (raw : SparseVec) (dim : Int) (uq kl : Bool), 0 < dim →
      indicesBelow (hash_vector raw dim uq kl) dim = true) := by
  have hhash : ∀ (raw : SparseVec) (dim : Int) (uq kl : Bool), 0 < dim →
      indicesBelow (hash_vector raw dim uq kl) dim = true := by
    intro raw dim uq kl hd
    rw [indicesBelow, List.all_eq_true]
    intro e he
    exact decide_eq_true (hash_vector_index_lt raw dim uq kl hd e he)
  refine ⟨?_, hhash⟩
  intro s hs
  induction hs with
  | ctor_def elem => intro _; rfl
  | ctor_file elem file il size d uq kl => intro _; rfl
  | ctor_mem elem vs d uq kl lab => intro _; rfl
  | step_start s hr ih =>
      by_cases h : s.parser.running
      · simpa [startParser, h] using ih
      · simpa [startParser, h] using ih
  | step_advance s hr ih =>
      cases hnext : s.parser.get_next with
      | none => simpa [get_next_example, hnext] using ih
      | some x =>
          obtain ⟨⟨vec, lab⟩, p'⟩ := x
          intro hd
          have hdim : (get_next_example s).2.dim = s.dim := by
            simp [get_next_example, hnext]
          have hcv : (get_next_example s).2.current_vector
              = hash_vector vec s.dim s.use_quadratic s.keep_linear_terms := by
            simp [get_next_example, hnext]
          rw [hdim] at hd
          rw [hdim, hcv]
          exact hhash _ _ _ _ hd
  | step_release s hr ih => simpa [release_example] using ih
  | step_stop s hr ih => simpa [endParser] using ih

/-- C6 (witness): the reachable pipeline `pipelineA` satisfies the range
invariant, and so does the hash of its raw batch vector at dimension 4. -/
theorem current_vector_index_range_witness :
    indicesBelow pipelineA.current_vector pipelineA.dim = true ∧
    indicesBelow (hash_vector [⟨3, 2⟩, ⟨7, 5⟩] 4 false true) 4 = true :=
  ⟨current_vector_index_range.1 pipelineA
    (Reach.step_advance _ (Reach.step_start _ (Reach.ctor_mem _ _ _ _ _ _)))
    (by decide),
  current_vector_index_range.2 [⟨3, 2⟩, ⟨7, 5⟩] 4 false true (by decide)⟩

/-- C7: `get_num_vectors` returns exactly 1 in every reachable pipeline
state, however many examples have been consumed. -/
theorem num_vectors_always_one (s : State) (_h : Reach s) :
    get_num_vectors s = 1 :=
  rfl

/-- C7 (witness): 1 even after a start, an advance and a release. -/
theorem num_vectors_always_one_witness :
    get_num_vectors
      (release_example
        (get_next_example (startParser (ctor_default ElementType.bool))).2) = 1 :=
  num_vectors_always_one _
    (Reach.step_release _ (Reach.step_advance _ (Reach.step_start _
      (Reach.ctor_def _))))

/-- C8: the in-memory constructor yields `seekable = true`,
`has_labels` exactly when a label array is supplied, and a parser told
not to free vectors on destruct; the file-source constructor yields
`seekable = false`, and the default constructor leaves the base default
`false` — so the in-memory path is the only one that sets it true. -/
theorem inmemory_ctor_flags :
    (∀ (elem : ElementType) (vs : List SparseVec) (d : Int) (uq kl : Bool)
        (lab : Option (List ℚ)),
      (ctor_from_sparse_features elem vs d uq kl lab).seekable = true ∧
      (ctor_from_sparse_features elem vs d uq kl lab).has_labels = lab.isSome ∧
      (ctor_from_sparse_features elem vs d uq kl lab).parser.free_vectors_on_destruct
        = false) ∧
    (∀ (elem : ElementType) (file : List (SparseVec × ℚ)) (il : Bool)
        (size d : Int) (uq kl : Bool),
      (ctor_from_file elem file il size d uq kl).seekable = false) ∧
    (∀ elem : ElementType, (ctor_default elem).seekable = false) :=
  ⟨fun _ _ _ _ _ _ => ⟨rfl, rfl, rfl⟩, fun _ _ _ _ _ _ _ => rfl, fun _ => rfl⟩

/-- C9: `get_feature_type` returns the constant `F_UINT` for every
element type the template is instantiated at, so the type-tag-and-name
check inside `dot` passes between any two such pipelines, whatever their
element types. -/
theorem feature_type_constant :
    (∀ st : ElementType, get_feature_type st = EFeatureType.F_UINT) ∧
    (∀ s df : State, dot_type_check s df = true) := by
  refine ⟨fun _ => rfl, fun s df => ?_⟩
  simp [dot_type_check, get_feature_type, get_name]

/-- C10: `release_example` only signals the parser to finalize the
current example; the current vector, the current label and every
configuration field are unchanged, so `get_vector` and `get_label` read
the same values as before. -/
theorem release_frame (s : State) :
    (release_example s).current_vector = s.current_vector ∧
    (release_example s).current_label = s.current_label ∧
    (release_example s).dim = s.dim ∧
    (release_example s).use_quadratic = s.use_quadratic ∧
    (release_example s).keep_linear_terms = s.keep_linear_terms ∧
    (release_example s).has_labels = s.has_labels ∧
    (release_example s).seekable = s.seekable ∧
    (release_example s).parser = s.parser.finalize_example ∧
    get_vector (release_example s) = get_vector s ∧
    get_label (release_example s) = get_label s :=
  ⟨rfl, rfl, rfl, rfl, rfl, rfl, rfl, rfl, rfl, rfl⟩

end Shogun
